import Mathlib

/-!
Shallow embedding of the request-parsing and response-writing core of
`src/r3u_http.c` (the single-request static HTTP server).

Modelling conventions:
* C byte strings are `List Char` (`Str`); the input bytes are assumed
  NUL-free and each line shorter than `BUFSIZ`, so the `fgets` buffer
  bound never truncates.
* The byte stream read from the connection is a single `Str`; `fgets`
  takes the prefix up to and including the first newline.
* Fatal `log_exit` aborts are `Except.error` with the C format string's
  static part as the message; no response bytes exist on the error path.
* The filesystem seen by `lstat`/`open` is a function from paths to an
  optional node kind (`none` models a failing `lstat`).
* `time(NULL)`/`gmtime`/`strftime` are modelled by passing the formatted
  date string as an explicit parameter.
* Loops that are not structurally recursive in Lean are written with an
  explicit fuel argument instantiated so that it provably never runs out
  (each iteration consumes at least one input byte).
-/

namespace R3U

abbrev Str := List Char

/-- Byte string of a Lean string literal. -/
def str (s : String) : Str := s.data

/-- C `isdigit` in the POSIX locale: ASCII '0'(48)..'9'(57). -/
def isDigitC (c : Char) : Bool := 48 ≤ c.toNat && c.toNat ≤ 57

/-- C `islower` in the POSIX locale: ASCII 'a'(97)..'z'(122). -/
def isLowerC (c : Char) : Bool := 97 ≤ c.toNat && c.toNat ≤ 122

/-- C `isupper` in the POSIX locale: ASCII 'A'(65)..'Z'(90). -/
def isUpperC (c : Char) : Bool := 65 ≤ c.toNat && c.toNat ≤ 90

/-- C `isspace` in the POSIX locale: space(32), and 9..13 (tab, newline,
vertical tab, form feed, carriage return). -/
def isSpaceC (c : Char) : Bool := c.toNat = 32 || (9 ≤ c.toNat && c.toNat ≤ 13)

/-- C `tolower` on ASCII (as used by `strcasecmp`/`strncasecmp`). -/
def tolowerC (c : Char) : Char :=
  if isUpperC c then Char.ofNat (c.toNat + 32) else c

/-- One step of `uppcase` (src line 155): `str[i] += 'A' - 'a'` when lower. -/
def toupperC (c : Char) : Char :=
  if isLowerC c then Char.ofNat (c.toNat - 32) else c

/-- `uppcase` (src lines 150-157): ASCII-uppercase every byte in place. -/
def uppcase (s : Str) : Str := s.map toupperC

/-- `strcasecmp(a, b) == 0`: byte strings equal up to ASCII case. -/
def strCaseEq (a b : Str) : Bool := a.map tolowerC == b.map tolowerC

/-- Digit-accumulation loop of C `atoi`/`atol`: consume leading decimal
digits, stop at the first non-digit. -/
def atoiLoop (acc : Int) : Str → Int
  | [] => acc
  | c :: rest =>
    if isDigitC c then atoiLoop (acc * 10 + ((c.toNat : Int) - 48)) rest else acc

/-- C `atoi`/`atol`: skip leading whitespace, optional sign, then leading
digits; any string without a leading (signed) digit run yields 0.
Modelled on unbounded `Int` (overflow is undefined behaviour in C). -/
def atoi (s : Str) : Int :=
  match s.dropWhile isSpaceC with
  | [] => 0
  | c :: rest =>
    if c = '-' then - atoiLoop 0 rest
    else if c = '+' then atoiLoop 0 rest
    else atoiLoop 0 (c :: rest)

/-- Split a byte string at the first occurrence of `sep` (C `strchr` +
`*p++ = '\0'`): `some (before, after)`, or `none` when absent. -/
def splitFirst (sep : Char) : Str → Option (Str × Str)
  | [] => none
  | c :: rest =>
    if c = sep then some ([], rest)
    else
      match splitFirst sep rest with
      | none => none
      | some (a, b) => some (c :: a, b)

/-- One `fgets` line: the prefix up to and including the first newline
(or the whole rest of the stream at EOF without a newline). -/
def takeLine : Str → Str × Str
  | [] => ([], [])
  | c :: rest =>
    if c = '\n' then (['\n'], rest)
    else
      let p := takeLine rest
      (c :: p.1, p.2)

/-- `fgets(buf, BUFSIZ, in)`: `none` models a NULL return at EOF. -/
def fgets (input : Str) : Option (Str × Str) :=
  match input with
  | [] => none
  | c :: rest => some (takeLine (c :: rest))

/-- `struct HTTPHeaderField` (src lines 18-23), minus the intrusive
`next` pointer: the list holding it plays that role. -/
structure HTTPHeaderField where
  name : Str
  value : Str

/-- `struct HTTPRequest` (src lines 25-33); `body = NULL` is the empty
string, `length` is the C `long`. -/
structure HTTPRequest where
  protocol_minor_version : Int
  method : Str
  path : Str
  header : List HTTPHeaderField
  body : Str
  length : Int

/-- `MAX_REQUEST_BODY_LENGTH` (src line 16). -/
def MAX_REQUEST_BODY_LENGTH : Int := 4194304

/-- `"HTTP/1."` prefix test of src line 144:
`strncasecmp(p, "HTTP/1.", strlen("HTTP/1.")) == 0`. -/
def startsWithHTTP1 (p : Str) : Bool :=
  strCaseEq (p.take (str "HTTP/1.").length) (str "HTTP/1.")

/-- `read_request_line` (src lines 122-148): read one line; split on the
first two spaces into method / path / protocol token; uppercase the
method; require the (case-insensitive) `HTTP/1.` prefix; `atoi` the
remainder as the minor version.  Returns the partially filled request
(header, body, length still at their pre-assignment defaults) and the
unread rest of the stream. -/
def read_request_line (input : Str) : Except String (HTTPRequest × Str) :=
  match fgets input with
  | none => .error "no request line"
  | some (buf, rest) =>
    match splitFirst ' ' buf with
    | none => .error "parse error on request line (1)"
    | some (m, afterMethod) =>
      match splitFirst ' ' afterMethod with
      | none => .error "parse error on request line (2)"
      | some (p, proto) =>
        if startsWithHTTP1 proto then
          .ok ({ protocol_minor_version := atoi (proto.drop (str "HTTP/1.").length),
                 method := uppcase m, path := p,
                 header := [], body := [], length := 0 }, rest)
        else .error "parse error on request line (3)"

/-- Line-level part of `read_header_field` (src lines 159-181): an exact
`"\n"` or `"\r\n"` line ends the header block (`ok none`); otherwise
split at the first colon, strip the value's leading spaces and tabs. -/
def read_header_field_line (buf : Str) : Except String (Option HTTPHeaderField) :=
  if buf = str "\n" || buf = str "\r\n" then .ok none
  else
    match splitFirst ':' buf with
    | none => .error "parse error on request header field"
    | some (n, v) => .ok (some ⟨n, v.dropWhile (fun c => c = ' ' || c = '\t')⟩)

/-- Header-reading loop of `read_request` (src lines 103-107), fueled:
read a line per iteration, prepend each parsed field (`h->next =
req->header; req->header = h`), stop at the terminator line, abort at
EOF.  Fuel `input.length` suffices since every iteration consumes at
least one byte; at fuel 0 the stream is empty, which is the same EOF
abort `fgets` returning NULL produces. -/
def read_header_go : Nat → List HTTPHeaderField → Str → Except String (List HTTPHeaderField × Str)
  | 0, _, _ => .error "failed to read request header field"
  | f + 1, acc, input =>
    match input with
    | [] => .error "failed to read request header field"
    | c :: rest0 =>
      let line := (takeLine (c :: rest0)).1
      let rest := (takeLine (c :: rest0)).2
      match read_header_field_line line with
      | .error e => .error e
      | .ok none => .ok (acc, rest)
      | .ok (some h) => read_header_go f (h :: acc) rest

/-- The header loop entered with `req->header = NULL` and the stream
positioned after the request line. -/
def read_header_loop (acc : List HTTPHeaderField) (input : Str) :
    Except String (List HTTPHeaderField × Str) :=
  read_header_go input.length acc input

/-- `lookup_header_field_value` (src lines 197-209): first
case-insensitive name match in list order (which, the list being built
by prepending, is the last match in wire order). -/
def lookup_header_field_value (header : List HTTPHeaderField) (name : Str) : Option Str :=
  match header with
  | [] => none
  | h :: t => if strCaseEq h.name name then some h.value else lookup_header_field_value t name

/-- `content_length` (src lines 183-195): absent header is 0; otherwise
`atol` the value and abort if negative. -/
def content_length (header : List HTTPHeaderField) : Except String Int :=
  match lookup_header_field_value header (str "Content-Length") with
  | none => .ok 0
  | some v =>
    let len := atoi v
    if len < 0 then .error "negative Content-Length value" else .ok len

/-- Request line + header block of `read_request` (src lines 100-107):
everything before the body is read. -/
def parse_head (input : Str) : Except String (HTTPRequest × Str) :=
  match read_request_line input with
  | .error e => .error e
  | .ok (req0, r1) =>
    match read_header_loop [] r1 with
    | .error e => .error e
    | .ok (hs, r2) => .ok ({ req0 with header := hs }, r2)

/-- `read_request` (src lines 95-120): parse head, derive the length
from `Content-Length`, then (when nonzero) enforce the 4 MiB cap and
read exactly `length` body bytes (`fread(body, length, 1, in)` reads one
`length`-sized item; a short stream gives a fatal short read). -/
def read_request (input : Str) : Except String (HTTPRequest × Str) :=
  match parse_head input with
  | .error e => .error e
  | .ok (req1, r2) =>
    match content_length req1.header with
    | .error e => .error e
    | .ok len =>
      if len ≠ 0 then
        if len > MAX_REQUEST_BODY_LENGTH then .error "request body too long"
        else if r2.length < len.toNat then .error "failed to read request body"
        else .ok ({ req1 with length := len, body := r2.take len.toNat }, r2.drop len.toNat)
      else .ok ({ req1 with length := len, body := [] }, r2)

/-- What `lstat` can find at a path: a regular file with its bytes, or a
non-regular node (`S_ISREG` false).  A `none` from the filesystem map
models `lstat` failing (missing path). -/
inductive FSNode where
  | regular (content : Str)
  | directory
  | symlink
  | device

/-- The filesystem as seen through `lstat`/`open` (no symlink following
at the terminal component, matching `lstat`). -/
abbrev FileSystem := Str → Option FSNode

/-- `struct FileInfo` (src lines 35-40).  When `ok` is false the C
`size` field is left uninitialized and never read; it is 0 here. -/
structure FileInfo where
  path : Str
  size : Int
  ok : Bool

/-- `build_fspath` (src lines 318-325): `sprintf(path, "%s/%s", docroot,
urlpath)` - raw concatenation, no normalization and no decoding. -/
def build_fspath (docroot urlpath : Str) : Str := docroot ++ '/' :: urlpath

/-- `get_fileinfo` (src lines 301-316): `lstat` the built path; `ok` only
when it names a regular file. -/
def get_fileinfo (fs : FileSystem) (docroot urlpath : Str) : FileInfo :=
  let path := build_fspath docroot urlpath
  match fs path with
  | some (FSNode.regular content) => ⟨path, (content.length : Int), true⟩
  | _ => ⟨path, 0, false⟩

/-- `SERVER_NAME` (src line 14). -/
def SERVER_NAME : Str := str "r3u http"

/-- `SERVER_VERSION` (src line 15). -/
def SERVER_VERSION : Str := str "0.0.1"

def crlf : Str := str "\r\n"

/-- Fueled digit emitter behind `intToStr` (printf `%d`/`%ld`): most
significant digit first.  Fuel `n + 1` suffices: the value shrinks by a
factor of 10 each step. -/
def natToDigitsGo : Nat → Nat → Str → Str
  | 0, _, acc => acc
  | f + 1, n, acc =>
    if n < 10 then Char.ofNat (48 + n) :: acc
    else natToDigitsGo f (n / 10) (Char.ofNat (48 + n % 10) :: acc)

/-- Decimal digits of a natural number, most significant first. -/
def natToDigits (n : Nat) : Str := natToDigitsGo (n + 1) n []

/-- printf `%d` / `%ld` of an integer. -/
def intToStr (i : Int) : Str :=
  if i < 0 then '-' :: natToDigits i.natAbs else natToDigits i.toNat

/-- `output_common_header_fields` (src lines 263-278): status line using
the request's parsed minor version, then Date, Server and Connection
headers, each CRLF-terminated; no blank line is emitted here. -/
def output_common_header_fields (date : Str) (minor : Int) (status : Str) : Str :=
  str "HTTP/1." ++ intToStr minor ++ ' ' :: status ++ crlf ++
  str "Date: " ++ date ++ crlf ++
  str "Server: " ++ SERVER_NAME ++ '/' :: SERVER_VERSION ++ crlf ++
  str "Connection: close" ++ crlf

/-- `guess_content_type` (src lines 280-284): constant placeholder. -/
def guess_content_type (_info : FileInfo) : Str := str "text/plain"

/-- `not_found` (src lines 296-299): only the common header block. -/
def not_found (req : HTTPRequest) (date : Str) : Str :=
  output_common_header_fields date req.protocol_minor_version (str "404 Not Found")

/-- `method_not_allowed` (src lines 286-289). -/
def method_not_allowed (req : HTTPRequest) (date : Str) : Str :=
  output_common_header_fields date req.protocol_minor_version (str "405 Method Not Allowed")

/-- `not_implemented` (src lines 291-294). -/
def not_implemented (req : HTTPRequest) (date : Str) : Str :=
  output_common_header_fields date req.protocol_minor_version (str "501 Not Implemented")

/-- `BUFSIZ` of the streaming loop (glibc value). -/
def BUFSIZ : Nat := 8192

/-- The body-streaming loop of `do_file_response` (src lines 247-256),
fueled: read up to `BUFSIZ` bytes, write them, until EOF.  Fuel
`content.length` suffices (each round consumes at least one byte). -/
def emit_file_go : Nat → Str → Str
  | 0, _ => []
  | f + 1, content =>
    match content with
    | [] => []
    | c :: rest0 => (c :: rest0).take BUFSIZ ++ emit_file_go f ((c :: rest0).drop BUFSIZ)

def emit_file_chunks (content : Str) : Str := emit_file_go content.length content

/-- `do_file_response` (src lines 223-261): 404 when the resolved path
is not a regular file; otherwise the 200 header block (common fields,
Content-Length, Content-Type, blank line) and, unless the method is
HEAD, the file bytes streamed in `BUFSIZ` chunks. -/
def do_file_response (fs : FileSystem) (req : HTTPRequest) (docroot date : Str) :
    Except String Str :=
  let info := get_fileinfo fs docroot req.path
  if info.ok = false then .ok (not_found req date)
  else
    let head :=
      output_common_header_fields date req.protocol_minor_version (str "200 OK") ++
      str "Content-Length: " ++ intToStr info.size ++ crlf ++
      str "Content-Type: " ++ guess_content_type info ++ crlf ++
      crlf
    if req.method ≠ str "HEAD" then
      match fs info.path with
      | some (FSNode.regular content) => .ok (head ++ emit_file_chunks content)
      | _ => .error "failed to open"
    else .ok head

/-- `respond_to` (src lines 211-221): dispatch on the uppercased method;
only GET and HEAD reach `do_file_response`. -/
def respond_to (fs : FileSystem) (req : HTTPRequest) (docroot date : Str) :
    Except String Str :=
  if req.method = str "GET" then do_file_response fs req docroot date
  else if req.method = str "HEAD" then do_file_response fs req docroot date
  else if req.method = str "POST" then .ok (method_not_allowed req date)
  else .ok (not_implemented req date)

/-- `service` (src lines 86-93): one request, one response; a parse
abort produces no output bytes. -/
def service (fs : FileSystem) (input docroot date : Str) : Except String Str :=
  match read_request input with
  | .error e => .error e
  | .ok (req, _) => respond_to fs req docroot date

/-- A wire line: ends with its only newline. -/
def WfLine (l : Str) : Prop := ∃ l', l = l' ++ ['\n'] ∧ '\n' ∉ l'

/-! ### Basic lemmas about the byte-level helpers -/

theorem takeLine_append (l s : Str) (hl : WfLine l) : takeLine (l ++ s) = (l, s) := by
  obtain ⟨l', rfl, hnl⟩ := hl
  induction l' with
  | nil => simp [takeLine]
  | cons c t ih =>
    have hc : c ≠ '\n' := fun h => hnl (by simp [h])
    have ht : '\n' ∉ t := fun h => hnl (by simp [h])
    simp only [List.cons_append, takeLine, if_neg hc, List.append_eq, ih ht]

theorem takeLine_snd_length_lt (input : Str) (h : input ≠ []) :
    (takeLine input).2.length < input.length := by
  induction input with
  | nil => exact absurd rfl h
  | cons c rest ih =>
    by_cases hc : c = '\n'
    · subst hc; simp [takeLine]
    · simp only [takeLine, if_neg hc]
      rcases rest with _ | ⟨d, rest'⟩
      · simp [takeLine]
      · exact Nat.lt_trans (ih (by simp)) (by simp)

theorem takeLine_fst_append_snd (input : Str) :
    (takeLine input).1 ++ (takeLine input).2 = input := by
  induction input with
  | nil => simp [takeLine]
  | cons c rest ih =>
    by_cases hc : c = '\n'
    · subst hc; simp [takeLine]
    · simp only [takeLine, if_neg hc, List.cons_append, ih]

theorem splitFirst_of_not_mem (sep : Char) (s : Str) (h : sep ∉ s) :
    splitFirst sep s = none := by
  induction s with
  | nil => rfl
  | cons c rest ih =>
    have hc : ¬ c = sep := fun hc => h (by simp [hc])
    simp only [splitFirst, if_neg hc, ih (fun hm => h (by simp [hm]))]

theorem splitFirst_append (sep : Char) (a b : Str) (h : sep ∉ a) :
    splitFirst sep (a ++ sep :: b) = some (a, b) := by
  induction a with
  | nil => simp [splitFirst]
  | cons c t ih =>
    have hc : ¬ c = sep := fun hc => h (by simp [hc])
    simp only [List.cons_append, splitFirst, if_neg hc, List.append_eq,
      ih (fun hm => h (by simp [hm]))]

/-! ### Decimal printing and `atoi` round trip -/

theorem natToDigitsGo_fuel (n : Nat) : ∀ f₁ f₂ acc, n < f₁ → n < f₂ →
    natToDigitsGo f₁ n acc = natToDigitsGo f₂ n acc := by
  induction n using Nat.strong_induction_on with
  | _ n ih =>
    intro f₁ f₂ acc h₁ h₂
    match f₁, f₂ with
    | g₁ + 1, g₂ + 1 =>
      by_cases h10 : n < 10
      · simp [natToDigitsGo, h10]
      · have hdiv : n / 10 < n := Nat.div_lt_self (by omega) (by omega)
        simp only [natToDigitsGo, if_neg h10]
        exact ih _ hdiv _ _ _ (by omega) (by omega)

theorem natToDigitsGo_acc (n : Nat) : ∀ f acc, n < f →
    natToDigitsGo f n acc = natToDigitsGo f n [] ++ acc := by
  induction n using Nat.strong_induction_on with
  | _ n ih =>
    intro f acc hf
    match f with
    | g + 1 =>
      by_cases h10 : n < 10
      · simp [natToDigitsGo, h10]
      · have hdiv : n / 10 < n := Nat.div_lt_self (by omega) (by omega)
        simp only [natToDigitsGo, if_neg h10]
        rw [ih _ hdiv _ _ (by omega), ih _ hdiv g [Char.ofNat (48 + n % 10)] (by omega),
          List.append_assoc]
        rfl

theorem natToDigits_unfold (n : Nat) :
    natToDigits n =
      if n < 10 then [Char.ofNat (48 + n)]
      else natToDigits (n / 10) ++ [Char.ofNat (48 + n % 10)] := by
  by_cases h10 : n < 10
  · simp [natToDigits, natToDigitsGo, h10]
  · have hdiv : n / 10 < n := Nat.div_lt_self (by omega) (by omega)
    have step : natToDigits n = natToDigitsGo n (n / 10) [Char.ofNat (48 + n % 10)] := by
      simp [natToDigits, natToDigitsGo, h10]
    rw [if_neg h10, step, natToDigitsGo_acc _ _ _ (by omega),
      natToDigitsGo_fuel (n / 10) n (n / 10 + 1) [] (by omega) (by omega)]
    rfl

theorem natToDigits_all_digits (n : Nat) :
    ∀ c ∈ natToDigits n, ∃ d, d < 10 ∧ c = Char.ofNat (48 + d) := by
  induction n using Nat.strong_induction_on with
  | _ n ih =>
    intro c hc
    rw [natToDigits_unfold] at hc
    by_cases h10 : n < 10
    · rw [if_pos h10, List.mem_singleton] at hc
      exact ⟨n, h10, hc⟩
    · rw [if_neg h10, List.mem_append] at hc
      rcases hc with hc | hc
      · exact ih _ (Nat.div_lt_self (by omega) (by omega)) c hc
      · exact ⟨n % 10, Nat.mod_lt _ (by omega), by simpa using hc⟩

theorem natToDigits_ne_nil (n : Nat) : natToDigits n ≠ [] := by
  rw [natToDigits_unfold]
  by_cases h10 : n < 10 <;> simp [h10]

theorem isDigitC_ofNat (d : Nat) (h : d < 10) : isDigitC (Char.ofNat (48 + d)) = true := by
  interval_cases d <;> decide

theorem digit_toNat (d : Nat) (h : d < 10) : (Char.ofNat (48 + d)).toNat = 48 + d := by
  interval_cases d <;> decide

theorem isDigitC_elim (c : Char) (h : isDigitC c = true) :
    48 ≤ c.toNat ∧ c.toNat ≤ 57 := by
  simp only [isDigitC, Bool.and_eq_true, decide_eq_true_eq] at h
  exact h

theorem not_isSpaceC_of_isDigitC (c : Char) (h : isDigitC c = true) :
    isSpaceC c = false := by
  obtain ⟨h1, h2⟩ := isDigitC_elim c h
  simp only [isSpaceC, Bool.or_eq_false_iff, Bool.and_eq_false_iff,
    decide_eq_false_iff_not]
  omega

theorem atoiLoop_digits_append (n : Nat) : ∀ (acc : Int) (r : Str),
    atoiLoop acc (natToDigits n ++ r) =
      atoiLoop (acc * 10 ^ (natToDigits n).length + n) r := by
  induction n using Nat.strong_induction_on with
  | _ n ih =>
    intro acc r
    by_cases h10 : n < 10
    · rw [natToDigits_unfold, if_pos h10]
      simp only [List.singleton_append, List.length_singleton, atoiLoop,
        isDigitC_ofNat n h10, if_true, digit_toNat n h10, pow_one]
      norm_num
    · have hdiv : n / 10 < n := Nat.div_lt_self (by omega) (by omega)
      have hmod : n % 10 < 10 := Nat.mod_lt _ (by omega)
      rw [natToDigits_unfold, if_neg h10, List.append_assoc, ih _ hdiv,
        List.singleton_append]
      simp only [atoiLoop, isDigitC_ofNat _ hmod, if_true, digit_toNat _ hmod,
        List.length_append, List.length_singleton, pow_succ]
      congr 1
      have := Nat.div_add_mod n 10
      push_cast
      nlinarith [this]

theorem atoiLoop_stop (acc : Int) (r : Str) (hr : ∀ c ∈ r.take 1, isDigitC c = false) :
    atoiLoop acc r = acc := by
  cases r with
  | nil => rfl
  | cons c t => simp [atoiLoop, hr c (by simp)]

theorem atoi_digits (n : Nat) (r : Str) (hr : ∀ c ∈ r.take 1, isDigitC c = false) :
    atoi (natToDigits n ++ r) = n := by
  rcases hnd : natToDigits n with _ | ⟨d, t⟩
  · exact absurd hnd (natToDigits_ne_nil n)
  have hdmem : d ∈ natToDigits n := by rw [hnd]; exact List.mem_cons_self d t
  obtain ⟨k, hk, hdk⟩ := natToDigits_all_digits n d hdmem
  have hdig : isDigitC d = true := by rw [hdk]; exact isDigitC_ofNat k hk
  have hsp : isSpaceC d = false := not_isSpaceC_of_isDigitC d hdig
  have h48 := (isDigitC_elim d hdig).1
  have hminus : ¬ d = '-' := by intro h; rw [h] at h48; exact absurd h48 (by decide)
  have hplus : ¬ d = '+' := by intro h; rw [h] at h48; exact absurd h48 (by decide)
  show atoi ((d :: t) ++ r) = n
  unfold atoi
  rw [List.cons_append, List.dropWhile_cons, if_neg (by simp [hsp])]
  simp only [if_neg hminus, if_neg hplus]
  rw [← List.cons_append, ← hnd, atoiLoop_digits_append n 0 r, zero_mul, zero_add,
    atoiLoop_stop _ r hr]

theorem atoiLoop_no_digit (acc : Int) (l : Str) (h : ∀ c ∈ l, isDigitC c = false) :
    atoiLoop acc l = acc := by
  cases l with
  | nil => rfl
  | cons c t => simp [atoiLoop, h c (by simp)]

theorem atoi_no_digit (s : Str) (h : ∀ c ∈ s, isDigitC c = false) : atoi s = 0 := by
  have hsub : ∀ c ∈ s.dropWhile isSpaceC, isDigitC c = false :=
    fun c hc => h c ((List.dropWhile_sublist isSpaceC).subset hc)
  unfold atoi
  rcases hdw : s.dropWhile isSpaceC with _ | ⟨c, rest⟩
  · rfl
  rw [hdw] at hsub
  have hrest : ∀ x ∈ rest, isDigitC x = false := fun x hx => hsub x (by simp [hx])
  simp only []
  by_cases hm : c = '-'
  · rw [if_pos hm, atoiLoop_no_digit _ _ hrest, neg_zero]
  by_cases hp : c = '+'
  · rw [if_neg hm, if_pos hp, atoiLoop_no_digit _ _ hrest]
  · rw [if_neg hm, if_neg hp, atoiLoop_no_digit _ _ hsub]

/-! ### The header-reading loop on wire-formatted input -/

theorem read_header_go_step (f : Nat) (acc : List HTTPHeaderField) (input : Str)
    (h : input ≠ []) :
    read_header_go (f + 1) acc input =
      match read_header_field_line (takeLine input).1 with
      | .error e => .error e
      | .ok none => .ok (acc, (takeLine input).2)
      | .ok (some hf) => read_header_go f (hf :: acc) (takeLine input).2 := by
  rcases input with _ | ⟨c, r⟩
  · exact absurd rfl h
  · rfl

theorem read_header_go_wire (lines : List Str) (fields : List HTTPHeaderField)
    (hpar : List.Forall₂ (fun l f => read_header_field_line l = .ok (some f)) lines fields) :
    (∀ l ∈ lines, WfLine l) →
    ∀ (term rest : Str) (acc : List HTTPHeaderField) (fuel : Nat),
      (term = str "\n" ∨ term = str "\r\n") →
      (lines.flatten ++ (term ++ rest)).length ≤ fuel →
      read_header_go fuel acc (lines.flatten ++ (term ++ rest)) =
        .ok (fields.reverse ++ acc, rest) := by
  induction hpar with
  | nil =>
    intro _ term rest acc fuel hterm hfuel
    have hterm' : WfLine term ∧ read_header_field_line term = .ok none := by
      rcases hterm with rfl | rfl
      · exact ⟨⟨[], rfl, by simp⟩, rfl⟩
      · exact ⟨⟨['\r'], rfl, by simp⟩, rfl⟩
    have hne : term ++ rest ≠ [] := by
      obtain ⟨⟨l', hl', -⟩, -⟩ := hterm'
      simp [hl']
    match fuel with
    | 0 =>
      simp only [List.flatten_nil, List.nil_append] at hfuel
      exact absurd (List.length_eq_zero.mp (Nat.le_zero.mp hfuel)) hne
    | g + 1 =>
      rw [List.flatten_nil, List.nil_append,
        read_header_go_step g acc (term ++ rest) hne,
        takeLine_append term rest hterm'.1]
      dsimp only
      rw [hterm'.2]
      simp
  | @cons l f ls fs hlf hrest ih =>
    intro hwf term rest acc fuel hterm hfuel
    have hwl : WfLine l := hwf l (by simp)
    obtain ⟨l', hl', hnl⟩ := hwl
    have hlne : l ≠ [] := by simp [hl']
    have hinput :
        (l :: ls).flatten ++ (term ++ rest) = l ++ (ls.flatten ++ (term ++ rest)) := by
      simp [List.flatten_cons]
    match fuel with
    | 0 =>
      exfalso
      rw [hinput] at hfuel
      rcases l with _ | ⟨c, r⟩
      · exact hlne rfl
      · simp at hfuel
    | g + 1 =>
      rw [hinput, read_header_go_step g acc _ (by simp [hl'])]
      rw [takeLine_append l _ ⟨l', hl', hnl⟩]
      dsimp only
      rw [hlf]
      dsimp only
      rw [ih (fun x hx => hwf x (by simp [hx])) term rest (f :: acc) g hterm
        (by rw [hinput] at hfuel
            rcases l with _ | ⟨c, r⟩
            · exact absurd rfl hlne
            · simp only [List.length_append, List.length_cons] at hfuel ⊢
              omega)]
      simp

theorem read_header_loop_wire (lines : List Str) (fields : List HTTPHeaderField)
    (hpar : List.Forall₂ (fun l f => read_header_field_line l = .ok (some f)) lines fields)
    (hwf : ∀ l ∈ lines, WfLine l) (term rest : Str)
    (hterm : term = str "\n" ∨ term = str "\r\n") :
    read_header_loop [] (lines.flatten ++ (term ++ rest)) = .ok (fields.reverse, rest) := by
  have := read_header_go_wire lines fields hpar hwf term rest []
    (lines.flatten ++ (term ++ rest)).length hterm le_rfl
  simpa [read_header_loop] using this

/-! ### Lookup order in the prepended header store -/

theorem lookup_eq_find (hs : List HTTPHeaderField) (name : Str) :
    lookup_header_field_value hs name =
      (hs.find? (fun f => strCaseEq f.name name)).map HTTPHeaderField.value := by
  induction hs with
  | nil => rfl
  | cons a t ih =>
    by_cases hp : strCaseEq a.name name = true
    · simp [lookup_header_field_value, List.find?, hp]
    · have hp' : strCaseEq a.name name = false := by simpa using hp
      simp [lookup_header_field_value, List.find?, hp', ih]

theorem lookup_reverse (fields : List HTTPHeaderField) (name : Str) :
    lookup_header_field_value fields.reverse name =
      ((fields.filter (fun f => strCaseEq f.name name)).getLast?).map
        HTTPHeaderField.value := by
  rw [lookup_eq_find, List.filter_getLast?]

/-! ### The streaming loop writes the file verbatim -/

theorem emit_file_go_eq (f : Nat) : ∀ c : Str, c.length ≤ f → emit_file_go f c = c := by
  induction f with
  | zero =>
    intro c h
    have : c = [] := List.length_eq_zero.mp (Nat.le_zero.mp h)
    subst this; rfl
  | succ f ih =>
    intro c h
    rcases c with _ | ⟨x, r⟩
    · rfl
    · have hdrop : ((x :: r).drop BUFSIZ).length ≤ f := by
        simp only [List.length_drop, List.length_cons] at h ⊢
        have : (0 : Nat) < BUFSIZ := by decide
        omega
      simp only [emit_file_go, ih _ hdrop, List.take_append_drop]

theorem emit_file_chunks_eq (c : Str) : emit_file_chunks c = c :=
  emit_file_go_eq c.length c le_rfl

/-! ### The request line parser on wire-formatted input -/

theorem fgets_eq (input : Str) (h : input ≠ []) : fgets input = some (takeLine input) := by
  rcases input with _ | ⟨c, r⟩
  · exact absurd rfl h
  · rfl

theorem natToDigits_no_newline (n : Nat) : '\n' ∉ natToDigits n := by
  intro h
  obtain ⟨d, hd, hc⟩ := natToDigits_all_digits n _ h
  have : ('\n').toNat = 48 + d := by rw [hc]; exact digit_toNat d hd
  simp at this
  omega

theorem startsWithHTTP1_append (s : Str) : startsWithHTTP1 (str "HTTP/1." ++ s) = true := by
  unfold startsWithHTTP1
  rw [List.take_left]
  simp [strCaseEq]

/-- Core splitting behaviour of `read_request_line` on a well-formed wire
line containing both spaces. -/
theorem read_request_line_split (M P proto extra : Str) (hM : ' ' ∉ M) (hP : ' ' ∉ P)
    (hwl : WfLine (M ++ ' ' :: (P ++ ' ' :: proto))) :
    read_request_line ((M ++ ' ' :: (P ++ ' ' :: proto)) ++ extra) =
      if startsWithHTTP1 proto then
        .ok (⟨atoi (proto.drop (str "HTTP/1.").length), uppcase M, P, [], [], 0⟩, extra)
      else .error "parse error on request line (3)" := by
  have hne : (M ++ ' ' :: (P ++ ' ' :: proto)) ++ extra ≠ [] := by simp
  unfold read_request_line
  rw [fgets_eq _ hne, takeLine_append _ _ hwl]
  dsimp only
  rw [splitFirst_append ' ' M _ hM]
  dsimp only
  rw [splitFirst_append ' ' P proto hP]

/-! ### Claim theorems -/

/-- C2.  A valid request line `<M> <P> HTTP/1.<n>\r\n` (both spaces
present) parses to the ASCII-uppercased method, the raw unmodified path
and minor version `n`; a line missing the first or the second separating
space is a fatal parse error and no request is produced. -/
theorem request_line_parse (M P : Str) (n : Nat) (extra : Str)
    (hM : ' ' ∉ M) (hP : ' ' ∉ P) (hMn : '\n' ∉ M) (hPn : '\n' ∉ P) :
    read_request_line ((M ++ ' ' :: (P ++ ' ' :: (str "HTTP/1." ++ (natToDigits n ++ str "\r\n")))) ++ extra)
      = .ok (⟨(n : Int), uppcase M, P, [], [], 0⟩, extra)
    ∧ (∀ buf extra' : Str, WfLine buf → ' ' ∉ buf →
        read_request_line (buf ++ extra') = .error "parse error on request line (1)")
    ∧ (∀ M' R extra' : Str, WfLine (M' ++ ' ' :: R) → ' ' ∉ M' → ' ' ∉ R →
        read_request_line ((M' ++ ' ' :: R) ++ extra')
          = .error "parse error on request line (2)") := by
  have hcrlf : str "\r\n" = ['\r'] ++ ['\n'] := rfl
  refine ⟨?_, ?_, ?_⟩
  · have hwl : WfLine (M ++ ' ' :: (P ++ ' ' :: (str "HTTP/1." ++ (natToDigits n ++ str "\r\n")))) := by
      refine ⟨M ++ ' ' :: (P ++ ' ' :: (str "HTTP/1." ++ (natToDigits n ++ ['\r']))), ?_, ?_⟩
      · rw [hcrlf]
        simp
      · intro hmem
        have hnd := natToDigits_no_newline n
        have h1 : '\n' ∉ str "HTTP/1." := by decide
        have h2 : ¬ ('\n' : Char) = ' ' := by decide
        have h3 : ¬ ('\n' : Char) = '\r' := by decide
        simp only [List.mem_append, List.mem_cons, List.mem_singleton] at hmem
        tauto
    rw [read_request_line_split M P _ extra hM hP hwl,
      if_pos (startsWithHTTP1_append (natToDigits n ++ str "\r\n")), List.drop_left,
      atoi_digits n (str "\r\n") (by decide)]
  · intro buf extra' hwl' hnsp
    have hbne : buf ≠ [] := by obtain ⟨l', rfl, -⟩ := hwl'; simp
    unfold read_request_line
    rw [fgets_eq _ (by simp [hbne]), takeLine_append _ _ hwl']
    dsimp only
    rw [splitFirst_of_not_mem ' ' buf hnsp]
  · intro M' R extra' hwl' hM' hR
    unfold read_request_line
    rw [fgets_eq _ (by simp), takeLine_append _ _ hwl']
    dsimp only
    rw [splitFirst_append ' ' M' R hM']
    dsimp only
    rw [splitFirst_of_not_mem ' ' R hR]

/-- C2 witness: a concrete mixed-case method and a raw dot-segment path. -/
theorem request_line_parse_witness :
    read_request_line (str "gEt /a%20b/../x HTTP/1.2\r\nrest")
      = .ok (⟨2, str "GET", str "/a%20b/../x", [], [], 0⟩, str "rest")
    ∧ read_request_line (str "GETNOSPACE\r\n") = .error "parse error on request line (1)"
    ∧ read_request_line (str "GET /nosecond\r\n") = .error "parse error on request line (2)" := by
  have h := request_line_parse (str "gEt") (str "/a%20b/../x") 2 (str "rest")
    (by decide) (by decide) (by decide) (by decide)
  exact ⟨h.1, h.2.1 (str "GETNOSPACE\r\n") [] ⟨str "GETNOSPACE\r", rfl, by decide⟩ (by decide),
    h.2.2 (str "GET") (str "/nosecond\r\n") [] ⟨str "GET /nosecond\r", rfl, by decide⟩
      (by decide) (by decide)⟩

/-- C8 counterexample: the protocol-token check is `strncasecmp`, so the
lower-case token `http/1.0`, which does not begin with the literal
`HTTP/1.`, is accepted rather than rejected. -/
theorem protocol_check_case_cex :
    read_request_line (str "get /x http/1.0\r\n") = .ok (⟨0, str "GET", str "/x", [], [], 0⟩, [])
    ∧ List.isPrefixOf (str "HTTP/1.") (str "http/1.0\r\n") = false := ⟨rfl, rfl⟩

/-- C8 amended.  Parsing fails with error (3) exactly when the protocol
token does not begin, ASCII-case-insensitively, with `HTTP/1.`; when it
does, the remaining characters go through `atoi` unvalidated, and any
suffix containing no digit at all yields minor version 0. -/
theorem protocol_check_amended (M P proto extra : Str)
    (hM : ' ' ∉ M) (hP : ' ' ∉ P)
    (hwl : WfLine (M ++ ' ' :: (P ++ ' ' :: proto))) :
    (startsWithHTTP1 proto = false →
      read_request_line ((M ++ ' ' :: (P ++ ' ' :: proto)) ++ extra)
        = .error "parse error on request line (3)")
    ∧ (startsWithHTTP1 proto = true →
      read_request_line ((M ++ ' ' :: (P ++ ' ' :: proto)) ++ extra)
        = .ok (⟨atoi (proto.drop (str "HTTP/1.").length), uppcase M, P, [], [], 0⟩, extra))
    ∧ (startsWithHTTP1 proto = true ↔
        (proto.take (str "HTTP/1.").length).map tolowerC = (str "HTTP/1.").map tolowerC)
    ∧ (∀ s : Str, (∀ c ∈ s, isDigitC c = false) → atoi s = 0) := by
  refine ⟨fun hf => ?_, fun ht => ?_, ?_, atoi_no_digit⟩
  · rw [read_request_line_split M P proto extra hM hP hwl, if_neg (by simp [hf])]
  · rw [read_request_line_split M P proto extra hM hP hwl, if_pos ht]
  · unfold startsWithHTTP1 strCaseEq
    exact beq_iff_eq

/-- C8 witness: `FTP/9.9` is rejected; `http/1.5` is accepted with minor
version 5; the digit-free suffix `x2x` (first char non-digit) of an
accepted token parses as 0. -/
theorem protocol_check_amended_witness :
    read_request_line (str "GET /i FTP/9.9\r\n") = .error "parse error on request line (3)"
    ∧ read_request_line (str "GET /i http/1.5\r\n") = .ok (⟨5, str "GET", str "/i", [], [], 0⟩, [])
    ∧ atoi (str "xyx") = 0 := by
  have h1 := protocol_check_amended (str "GET") (str "/i") (str "FTP/9.9\r\n") []
    (by decide) (by decide) ⟨str "GET /i FTP/9.9\r", rfl, by decide⟩
  have h2 := protocol_check_amended (str "GET") (str "/i") (str "http/1.5\r\n") []
    (by decide) (by decide) ⟨str "GET /i http/1.5\r", rfl, by decide⟩
  exact ⟨h1.1 (by decide), h2.2.1 (by decide), h2.2.2.2 (str "xyx") (by decide)⟩

/-- C4.  A present `Content-Length` that parses negative is a fatal
abort with no response bytes; one over the 4 MiB cap is the fatal "body
too long" abort, raised before any body byte is consumed (the outcome
does not depend on what, if anything, follows the header block). -/
theorem content_length_aborts (input : Str) (req1 : HTTPRequest) (r2 v : Str)
    (hp : parse_head input = .ok (req1, r2))
    (hv : lookup_header_field_value req1.header (str "Content-Length") = some v) :
    (atoi v < 0 →
      read_request input = .error "negative Content-Length value"
      ∧ ∀ fs docroot date, service fs input docroot date
          = .error "negative Content-Length value")
    ∧ (MAX_REQUEST_BODY_LENGTH < atoi v →
      read_request input = .error "request body too long"
      ∧ ∀ fs docroot date, service fs input docroot date
          = .error "request body too long") := by
  constructor
  · intro hneg
    have hcl : content_length req1.header = .error "negative Content-Length value" := by
      unfold content_length
      rw [hv]
      dsimp only
      rw [if_pos hneg]
    have hrr : read_request input = .error "negative Content-Length value" := by
      unfold read_request
      rw [hp]
      dsimp only
      rw [hcl]
    refine ⟨hrr, fun fs docroot date => ?_⟩
    unfold service
    rw [hrr]
  · intro hcap
    have hcap' : (4194304 : Int) < atoi v := hcap
    have hneg : ¬ atoi v < 0 := by omega
    have hne : atoi v ≠ 0 := by omega
    have hcl : content_length req1.header = .ok (atoi v) := by
      unfold content_length
      rw [hv]
      dsimp only
      rw [if_neg hneg]
    have hrr : read_request input = .error "request body too long" := by
      unfold read_request
      rw [hp]
      dsimp only
      rw [hcl]
      dsimp only
      rw [if_pos hne, if_pos hcap]
    refine ⟨hrr, fun fs docroot date => ?_⟩
    unfold service
    rw [hrr]

/-- C4 witness: `Content-Length: -7` aborts with the negative-value
message; `Content-Length: 4194305` (cap + 1) aborts as body too long
even though zero bytes follow the header block. -/
theorem content_length_aborts_witness :
    read_request (str "GET / HTTP/1.1\r\nContent-Length: -7\r\n\r\n")
      = .error "negative Content-Length value"
    ∧ read_request (str "GET / HTTP/1.1\r\nContent-Length: 4194305\r\n\r\n")
      = .error "request body too long" := by
  have h1 := content_length_aborts (str "GET / HTTP/1.1\r\nContent-Length: -7\r\n\r\n")
    ⟨1, str "GET", str "/", [⟨str "Content-Length", str "-7\r\n"⟩], [], 0⟩ [] (str "-7\r\n")
    rfl rfl
  have h2 := content_length_aborts (str "GET / HTTP/1.1\r\nContent-Length: 4194305\r\n\r\n")
    ⟨1, str "GET", str "/", [⟨str "Content-Length", str "4194305\r\n"⟩], [], 0⟩ []
    (str "4194305\r\n") rfl rfl
  exact ⟨(h1.1 (by decide)).1, (h2.2 (by decide)).1⟩

/-- C5.  For a successfully parsed request: the body length always
equals `length`; the stream left after the headers splits exactly into
the consumed body followed by the untouched remainder; no
`Content-Length` header means length 0 and empty body; a looked-up
`Content-Length` value fixes `length` to its parsed integer. -/
theorem body_consumption (input : Str) (req1 : HTTPRequest) (r2 : Str)
    (req : HTTPRequest) (rest : Str)
    (hp : parse_head input = .ok (req1, r2))
    (hr : read_request input = .ok (req, rest)) :
    (req.body.length : Int) = req.length
    ∧ req.body ++ rest = r2
    ∧ (lookup_header_field_value req1.header (str "Content-Length") = none →
        req.length = 0 ∧ req.body = [])
    ∧ (∀ v, lookup_header_field_value req1.header (str "Content-Length") = some v →
        req.length = atoi v) := by
  unfold read_request at hr
  rw [hp] at hr
  dsimp only at hr
  rcases hcl : content_length req1.header with e | len
  · rw [hcl] at hr
    exact Except.noConfusion hr
  rw [hcl] at hr
  dsimp only at hr
  have hnone : lookup_header_field_value req1.header (str "Content-Length") = none →
      len = 0 := by
    intro h0
    unfold content_length at hcl
    rw [h0] at hcl
    injection hcl with h
    exact h.symm
  have hsome : ∀ v, lookup_header_field_value req1.header (str "Content-Length") = some v →
      len = atoi v ∧ 0 ≤ atoi v := by
    intro v hv
    unfold content_length at hcl
    rw [hv] at hcl
    dsimp only at hcl
    by_cases hneg : atoi v < 0
    · rw [if_pos hneg] at hcl
      exact Except.noConfusion hcl
    · rw [if_neg hneg] at hcl
      injection hcl with h
      exact ⟨h.symm, by omega⟩
  have hlen0 : 0 ≤ len := by
    rcases hl : lookup_header_field_value req1.header (str "Content-Length") with _ | v
    · rw [hnone hl]
    · exact (hsome v hl).1 ▸ (hsome v hl).2
  by_cases hz : len = 0
  · rw [if_neg (by simp [hz])] at hr
    injection hr with h
    injection h with h1 h2
    subst h2
    rw [← h1]
    refine ⟨by simp [hz], by simp, fun h0 => ⟨hz, rfl⟩,
      fun v hv => by dsimp only; exact (hsome v hv).1⟩
  · rw [if_pos hz] at hr
    by_cases hcap : len > MAX_REQUEST_BODY_LENGTH
    · rw [if_pos hcap] at hr
      exact Except.noConfusion hr
    rw [if_neg hcap] at hr
    by_cases hshort : r2.length < len.toNat
    · rw [if_pos hshort] at hr
      exact Except.noConfusion hr
    rw [if_neg hshort] at hr
    injection hr with h
    injection h with h1 h2
    subst h2
    rw [← h1]
    have htake : (r2.take len.toNat).length = len.toNat := by
      rw [List.length_take]
      omega
    refine ⟨?_, by simp, fun h0 => absurd (hnone h0) hz, fun v hv => (hsome v hv).1⟩
    dsimp only
    rw [htake]
    exact Int.toNat_of_nonneg hlen0

/-- C5 witness: `Content-Length: 3` with stream `abcXY` after the blank
line consumes exactly `abc` and leaves `XY`. -/
theorem body_consumption_witness :
    ((str "abc").length : Int) = (3 : Int)
    ∧ str "abc" ++ str "XY" = str "abcXY"
    ∧ (3 : Int) = atoi (str "3\r\n") := by
  have h := body_consumption (str "POST /u HTTP/1.0\r\nContent-Length: 3\r\n\r\nabcXY")
    ⟨0, str "POST", str "/u", [⟨str "Content-Length", str "3\r\n"⟩], [], 0⟩ (str "abcXY")
    ⟨0, str "POST", str "/u", [⟨str "Content-Length", str "3\r\n"⟩], str "abc", 3⟩ (str "XY")
    rfl rfl
  exact ⟨h.1, h.2.1, h.2.2.2 (str "3\r\n") rfl⟩

/-- C10.  A present but digit-free (hence non-numeric or effectively
empty) `Content-Length` value parses to 0 under `atoi` semantics: no
abort, length 0, empty body, and the parse succeeds normally. -/
theorem content_length_non_numeric (input : Str) (req1 : HTTPRequest) (r2 v : Str)
    (hp : parse_head input = .ok (req1, r2))
    (hv : lookup_header_field_value req1.header (str "Content-Length") = some v)
    (hnd : ∀ c ∈ v, isDigitC c = false) :
    content_length req1.header = .ok 0
    ∧ read_request input = .ok ({ req1 with length := 0, body := [] }, r2) := by
  have hz : atoi v = 0 := atoi_no_digit v hnd
  have hcl : content_length req1.header = .ok 0 := by
    unfold content_length
    rw [hv]
    dsimp only
    rw [hz, if_neg (by omega)]
  refine ⟨hcl, ?_⟩
  unfold read_request
  rw [hp]
  dsimp only
  rw [hcl]
  dsimp only
  rw [if_neg (by simp)]

/-- C10 witness: `Content-Length: abc` parses as 0 and the request goes
through with an empty body, leaving trailing stream bytes unread. -/
theorem content_length_non_numeric_witness :
    content_length [⟨str "Content-Length", str "abc\r\n"⟩] = .ok 0
    ∧ read_request (str "GET / HTTP/1.1\r\nContent-Length: abc\r\n\r\nZZ")
      = .ok (⟨1, str "GET", str "/", [⟨str "Content-Length", str "abc\r\n"⟩], [], 0⟩, str "ZZ") := by
  have h := content_length_non_numeric (str "GET / HTTP/1.1\r\nContent-Length: abc\r\n\r\nZZ")
    ⟨1, str "GET", str "/", [⟨str "Content-Length", str "abc\r\n"⟩], [], 0⟩ (str "ZZ")
    (str "abc\r\n") rfl rfl (by decide)
  exact ⟨h.1, h.2⟩

/-- C6.  Dispatch on the uppercased method: POST always yields the 405
response, any method other than GET/HEAD/POST yields the 501 response,
and for any non-GET/HEAD method the response is independent of the
filesystem (no file is resolved). -/
theorem method_dispatch (fs : FileSystem) (req : HTTPRequest) (docroot date : Str) :
    (req.method = str "POST" →
      respond_to fs req docroot date =
        .ok (output_common_header_fields date req.protocol_minor_version
          (str "405 Method Not Allowed")))
    ∧ (req.method ≠ str "GET" → req.method ≠ str "HEAD" → req.method ≠ str "POST" →
      respond_to fs req docroot date =
        .ok (output_common_header_fields date req.protocol_minor_version
          (str "501 Not Implemented")))
    ∧ (∀ fs' : FileSystem, req.method ≠ str "GET" → req.method ≠ str "HEAD" →
      respond_to fs req docroot date = respond_to fs' req docroot date) := by
  refine ⟨fun hm => ?_, fun h1 h2 h3 => ?_, fun fs' h1 h2 => ?_⟩
  · unfold respond_to
    rw [hm, if_neg (by decide), if_neg (by decide), if_pos rfl]
    rfl
  · unfold respond_to
    rw [if_neg h1, if_neg h2]
    by_cases h3' : req.method = str "POST"
    · exact absurd h3' h3
    · rw [if_neg h3']
      rfl
  · unfold respond_to
    simp only [if_neg h1, if_neg h2]

/-- C6 witness: POST gets 405 for a path that even exists; PUT gets 501;
and the PUT response does not depend on the filesystem. -/
theorem method_dispatch_witness :
    respond_to (fun _ => some (FSNode.regular (str "x")))
        ⟨1, str "POST", str "/p", [], [], 0⟩ (str "/www") (str "D")
      = .ok (output_common_header_fields (str "D") 1 (str "405 Method Not Allowed"))
    ∧ respond_to (fun _ => none) ⟨1, str "PUT", str "/p", [], [], 0⟩ (str "/www") (str "D")
      = .ok (output_common_header_fields (str "D") 1 (str "501 Not Implemented"))
    ∧ respond_to (fun _ => none) ⟨1, str "PUT", str "/p", [], [], 0⟩ (str "/www") (str "D")
      = respond_to (fun _ => some (FSNode.regular (str "x")))
          ⟨1, str "PUT", str "/p", [], [], 0⟩ (str "/www") (str "D") := by
  have h1 := method_dispatch (fun _ => some (FSNode.regular (str "x")))
    ⟨1, str "POST", str "/p", [], [], 0⟩ (str "/www") (str "D")
  have h2 := method_dispatch (fun _ => none)
    ⟨1, str "PUT", str "/p", [], [], 0⟩ (str "/www") (str "D")
  exact ⟨h1.1 rfl, h2.2.1 (by decide) (by decide) (by decide),
    h2.2.2 (fun _ => some (FSNode.regular (str "x"))) (by decide) (by decide)⟩

/-- C7.  File resolution concatenates docroot, a slash and the raw url
path with no normalization or decoding; the result exists exactly when
the (lstat-style, non-following) filesystem lookup finds a regular file
there; anything else - missing, directory, symlink, device - makes
GET/HEAD respond 404. -/
theorem file_resolution (fs : FileSystem) (docroot urlpath : Str) :
    build_fspath docroot urlpath = docroot ++ '/' :: urlpath
    ∧ (get_fileinfo fs docroot urlpath).path = docroot ++ '/' :: urlpath
    ∧ ((get_fileinfo fs docroot urlpath).ok = true ↔
        ∃ c, fs (docroot ++ '/' :: urlpath) = some (FSNode.regular c))
    ∧ (∀ (req : HTTPRequest) (date : Str),
        (req.method = str "GET" ∨ req.method = str "HEAD") →
        req.path = urlpath →
        (∀ c, fs (docroot ++ '/' :: urlpath) ≠ some (FSNode.regular c)) →
        respond_to fs req docroot date =
          .ok (output_common_header_fields date req.protocol_minor_version
            (str "404 Not Found"))) := by
  have hbp : build_fspath docroot urlpath = docroot ++ '/' :: urlpath := rfl
  refine ⟨hbp, ?_, ?_, ?_⟩
  · rcases hfs : fs (docroot ++ '/' :: urlpath) with _ | node
    · simp [get_fileinfo, build_fspath, hfs]
    · cases node <;> simp [get_fileinfo, build_fspath, hfs]
  · constructor
    · intro hok
      rcases hfs : fs (docroot ++ '/' :: urlpath) with _ | node
      · rw [get_fileinfo, hbp, hfs] at hok
        exact absurd hok (by simp)
      · cases node with
        | regular c => exact ⟨c, rfl⟩
        | _ =>
          rw [get_fileinfo, hbp, hfs] at hok
          exact absurd hok (by simp)
    · rintro ⟨c, hc⟩
      rw [get_fileinfo, hbp, hc]
  · intro req date hm hpath hmiss
    have hok : (get_fileinfo fs docroot req.path).ok = false := by
      rw [hpath]
      rcases hfs : fs (docroot ++ '/' :: urlpath) with _ | node
      · simp [get_fileinfo, build_fspath, hfs]
      · cases node with
        | regular c => exact absurd hfs (hmiss c)
        | _ => simp [get_fileinfo, build_fspath, hfs]
    have hdo : do_file_response fs req docroot date = .ok (not_found req date) := by
      unfold do_file_response
      rw [if_pos hok]
    rcases hm with hg | hh
    · unfold respond_to
      rw [if_pos hg, hdo]
      rfl
    · unfold respond_to
      have hng : ¬ req.method = str "GET" := by rw [hh]; decide
      rw [if_neg hng, if_pos hh, hdo]
      rfl

/-- C7 witness: a raw traversal path is concatenated untouched, a
directory target is not `ok`, and GET on it produces the 404 block. -/
theorem file_resolution_witness :
    build_fspath (str "/www") (str "/../secret") = str "/www//../secret"
    ∧ (get_fileinfo (fun _ => some FSNode.directory) (str "/www") (str "/../secret")).ok = false
    ∧ respond_to (fun _ => some FSNode.directory)
        ⟨1, str "GET", str "/../secret", [], [], 0⟩ (str "/www") (str "D")
      = .ok (output_common_header_fields (str "D") 1 (str "404 Not Found")) := by
  have h := file_resolution (fun _ => some FSNode.directory) (str "/www") (str "/../secret")
  refine ⟨h.1, ?_, h.2.2.2 ⟨1, str "GET", str "/../secret", [], [], 0⟩ (str "D")
    (Or.inl rfl) rfl (fun c hc => by exact FSNode.noConfusion (Option.some.inj hc))⟩
  have hiff := h.2.2.1
  by_cases hok : (get_fileinfo (fun _ => some FSNode.directory) (str "/www") (str "/../secret")).ok = true
  · obtain ⟨c, hc⟩ := hiff.mp hok
    exact FSNode.noConfusion (Option.some.inj hc)
  · simpa using hok

/-- C3.  GET or HEAD on a path resolving to a regular file responds 200
with `Content-Length` equal to the file's byte count; HEAD emits no body
byte after the blank line, GET emits exactly the file's bytes. -/
theorem file_response_200 (fs : FileSystem) (req : HTTPRequest) (docroot date content : Str)
    (hm : req.method = str "GET" ∨ req.method = str "HEAD")
    (hf : fs (build_fspath docroot req.path) = some (FSNode.regular content)) :
    respond_to fs req docroot date = .ok (
      output_common_header_fields date req.protocol_minor_version (str "200 OK")
      ++ str "Content-Length: " ++ intToStr (content.length : Int) ++ crlf
      ++ str "Content-Type: " ++ str "text/plain" ++ crlf
      ++ crlf
      ++ (if req.method = str "HEAD" then [] else content)) := by
  have hinfo : get_fileinfo fs docroot req.path =
      ⟨build_fspath docroot req.path, (content.length : Int), true⟩ := by
    rw [get_fileinfo, hf]
  rcases hm with hg | hh
  · have hnh : req.method ≠ str "HEAD" := by rw [hg]; decide
    unfold respond_to
    rw [if_pos hg]
    unfold do_file_response
    rw [hinfo]
    dsimp only
    rw [if_neg (by simp), if_pos hnh, hf]
    dsimp only
    rw [emit_file_chunks_eq, if_neg hnh]
    simp [guess_content_type]
  · have hng : req.method ≠ str "GET" := by rw [hh]; decide
    unfold respond_to
    rw [if_neg hng, if_pos hh]
    unfold do_file_response
    rw [hinfo]
    dsimp only
    rw [if_neg (by simp), if_neg (by simp [hh])]
    rw [if_pos hh]
    simp [guess_content_type]

/-- C3 witness: GET and HEAD on a 12-byte file; GET carries the 12 body
bytes verbatim, HEAD stops at the blank line. -/
theorem file_response_200_witness :
    respond_to (fun p => if p = str "/www//f.txt" then some (FSNode.regular (str "hello world!")) else none)
        ⟨1, str "GET", str "/f.txt", [], [], 0⟩ (str "/www") (str "D")
      = .ok (str "HTTP/1.1 200 OK\r\nDate: D\r\nServer: r3u http/0.0.1\r\nConnection: close\r\nContent-Length: 12\r\nContent-Type: text/plain\r\n\r\nhello world!")
    ∧ respond_to (fun p => if p = str "/www//f.txt" then some (FSNode.regular (str "hello world!")) else none)
        ⟨0, str "HEAD", str "/f.txt", [], [], 0⟩ (str "/www") (str "D")
      = .ok (str "HTTP/1.0 200 OK\r\nDate: D\r\nServer: r3u http/0.0.1\r\nConnection: close\r\nContent-Length: 12\r\nContent-Type: text/plain\r\n\r\n") := by
  have h1 := file_response_200
    (fun p => if p = str "/www//f.txt" then some (FSNode.regular (str "hello world!")) else none)
    ⟨1, str "GET", str "/f.txt", [], [], 0⟩ (str "/www") (str "D") (str "hello world!")
    (Or.inl rfl) (by rfl)
  have h2 := file_response_200
    (fun p => if p = str "/www//f.txt" then some (FSNode.regular (str "hello world!")) else none)
    ⟨0, str "HEAD", str "/f.txt", [], [], 0⟩ (str "/www") (str "D") (str "hello world!")
    (Or.inr rfl) (by rfl)
  exact ⟨h1, h2⟩

/-- Shape of every `do_file_response` output: the common header block,
then either the 200-specific headers, blank line and optional body, or
nothing at all after the 404 block. -/
theorem do_file_response_shape (fs : FileSystem) (req : HTTPRequest) (docroot date out : Str)
    (h : do_file_response fs req docroot date = .ok out) :
    ∃ status rest,
      out = output_common_header_fields date req.protocol_minor_version status ++ rest
      ∧ ((status = str "200 OK" ∧ ∃ (n : Int) (body : Str),
            rest = str "Content-Length: " ++ intToStr n ++ crlf
              ++ str "Content-Type: " ++ str "text/plain" ++ crlf ++ crlf ++ body)
        ∨ (status = str "404 Not Found" ∧ rest = [])) := by
  rcases hfs : fs (build_fspath docroot req.path) with _ | node
  · have hinfo : get_fileinfo fs docroot req.path =
        ⟨build_fspath docroot req.path, 0, false⟩ := by rw [get_fileinfo, hfs]
    unfold do_file_response at h
    rw [hinfo] at h
    dsimp only at h
    rw [if_pos rfl] at h
    injection h with h'
    refine ⟨str "404 Not Found", [], ?_, Or.inr ⟨rfl, rfl⟩⟩
    rw [← h']
    simp [not_found]
  · cases node with
    | regular c =>
      have hinfo : get_fileinfo fs docroot req.path =
          ⟨build_fspath docroot req.path, (c.length : Int), true⟩ := by
        rw [get_fileinfo, hfs]
      unfold do_file_response at h
      rw [hinfo] at h
      dsimp only at h
      rw [if_neg (by simp)] at h
      by_cases hh : req.method = str "HEAD"
      · rw [if_neg (by simp [hh])] at h
        injection h with h'
        refine ⟨str "200 OK", _, ?_, Or.inl ⟨rfl, (c.length : Int), [], rfl⟩⟩
        rw [← h']
        simp [guess_content_type, List.append_assoc]
      · rw [if_pos hh, hfs] at h
        dsimp only at h
        rw [emit_file_chunks_eq] at h
        injection h with h'
        refine ⟨str "200 OK", _, ?_, Or.inl ⟨rfl, (c.length : Int), c, rfl⟩⟩
        rw [← h']
        simp [guess_content_type, List.append_assoc]
    | directory =>
      have hinfo : get_fileinfo fs docroot req.path =
          ⟨build_fspath docroot req.path, 0, false⟩ := by rw [get_fileinfo, hfs]
      unfold do_file_response at h
      rw [hinfo] at h
      dsimp only at h
      rw [if_pos rfl] at h
      injection h with h'
      refine ⟨str "404 Not Found", [], ?_, Or.inr ⟨rfl, rfl⟩⟩
      rw [← h']
      simp [not_found]
    | symlink =>
      have hinfo : get_fileinfo fs docroot req.path =
          ⟨build_fspath docroot req.path, 0, false⟩ := by rw [get_fileinfo, hfs]
      unfold do_file_response at h
      rw [hinfo] at h
      dsimp only at h
      rw [if_pos rfl] at h
      injection h with h'
      refine ⟨str "404 Not Found", [], ?_, Or.inr ⟨rfl, rfl⟩⟩
      rw [← h']
      simp [not_found]
    | device =>
      have hinfo : get_fileinfo fs docroot req.path =
          ⟨build_fspath docroot req.path, 0, false⟩ := by rw [get_fileinfo, hfs]
      unfold do_file_response at h
      rw [hinfo] at h
      dsimp only at h
      rw [if_pos rfl] at h
      injection h with h'
      refine ⟨str "404 Not Found", [], ?_, Or.inr ⟨rfl, rfl⟩⟩
      rw [← h']
      simp [not_found]

/-- C1 counterexample: the 404 answer to `HEAD /missing.txt HTTP/1.0` is
the status line plus the three common headers with NO terminating blank
line - the response does not even contain, let alone end with, an empty
line, contradicting the claimed header-ending blank line. -/
theorem notfound_blank_line_cex :
    service (fun _ => none) (str "HEAD /missing.txt HTTP/1.0\r\n\r\n") (str "/www")
        (str "Thu, 01 Jan 1970 00:00:00 GMT")
      = .ok (str "HTTP/1.0 404 Not Found\r\nDate: Thu, 01 Jan 1970 00:00:00 GMT\r\nServer: r3u http/0.0.1\r\nConnection: close\r\n")
    ∧ List.isSuffixOf (str "\r\n\r\n")
        (str "HTTP/1.0 404 Not Found\r\nDate: Thu, 01 Jan 1970 00:00:00 GMT\r\nServer: r3u http/0.0.1\r\nConnection: close\r\n")
      = false := ⟨rfl, rfl⟩

/-- C1 amended.  Every emitted response starts with the status line
`HTTP/1.<minorVersion> <code> <reason>` built from the request's parsed
minor version, followed by the Date, Server and `Connection: close`
headers; a 200 response then carries its response-specific headers, the
blank line, and the body when applicable, while the 404/405/501
responses end right after `Connection: close` with no blank line.  In
particular HEAD on a missing file yields exactly the 404 status line
plus the common headers. -/
theorem response_layout_amended :
    (∀ (fs : FileSystem) (req : HTTPRequest) (docroot date out : Str),
      respond_to fs req docroot date = .ok out →
      ∃ status rest,
        out = output_common_header_fields date req.protocol_minor_version status ++ rest
        ∧ ((status = str "200 OK"
            ∧ ∃ (n : Int) (body : Str),
                rest = str "Content-Length: " ++ intToStr n ++ crlf
                  ++ str "Content-Type: " ++ str "text/plain" ++ crlf ++ crlf ++ body)
          ∨ ((status = str "404 Not Found" ∨ status = str "405 Method Not Allowed"
              ∨ status = str "501 Not Implemented") ∧ rest = [])))
    ∧ (∀ date : Str,
        service (fun _ => none) (str "HEAD /missing.txt HTTP/1.0\r\n\r\n") (str "/www") date
          = .ok (output_common_header_fields date 0 (str "404 Not Found"))) := by
  constructor
  · intro fs req docroot date out h
    unfold respond_to at h
    by_cases hg : req.method = str "GET"
    · rw [if_pos hg] at h
      obtain ⟨status, rest, he, hd⟩ := do_file_response_shape fs req docroot date out h
      exact ⟨status, rest, he, hd.imp id (fun hp => ⟨Or.inl hp.1, hp.2⟩)⟩
    rw [if_neg hg] at h
    by_cases hh : req.method = str "HEAD"
    · rw [if_pos hh] at h
      obtain ⟨status, rest, he, hd⟩ := do_file_response_shape fs req docroot date out h
      exact ⟨status, rest, he, hd.imp id (fun hp => ⟨Or.inl hp.1, hp.2⟩)⟩
    rw [if_neg hh] at h
    by_cases hp : req.method = str "POST"
    · rw [if_pos hp] at h
      injection h with h'
      refine ⟨str "405 Method Not Allowed", [], ?_, Or.inr ⟨Or.inr (Or.inl rfl), rfl⟩⟩
      rw [← h']
      simp [method_not_allowed]
    · rw [if_neg hp] at h
      injection h with h'
      refine ⟨str "501 Not Implemented", [], ?_, Or.inr ⟨Or.inr (Or.inr rfl), rfl⟩⟩
      rw [← h']
      simp [not_implemented]
  · intro date
    rfl

/-- C1 witness: the POST response decomposes as common block plus empty
remainder, and the concrete HEAD-on-missing-file scenario produces
exactly the 404 common block. -/
theorem response_layout_witness :
    (∃ status rest,
      str "HTTP/1.1 405 Method Not Allowed\r\nDate: D\r\nServer: r3u http/0.0.1\r\nConnection: close\r\n"
        = output_common_header_fields (str "D") 1 status ++ rest
      ∧ ((status = str "200 OK"
          ∧ ∃ (n : Int) (body : Str),
              rest = str "Content-Length: " ++ intToStr n ++ crlf
                ++ str "Content-Type: " ++ str "text/plain" ++ crlf ++ crlf ++ body)
        ∨ ((status = str "404 Not Found" ∨ status = str "405 Method Not Allowed"
            ∨ status = str "501 Not Implemented") ∧ rest = [])))
    ∧ service (fun _ => none) (str "HEAD /missing.txt HTTP/1.0\r\n\r\n") (str "/www") (str "D")
        = .ok (output_common_header_fields (str "D") 0 (str "404 Not Found")) :=
  ⟨response_layout_amended.1 (fun _ => none) ⟨1, str "POST", str "/p", [], [], 0⟩
      (str "/www") (str "D")
      (str "HTTP/1.1 405 Method Not Allowed\r\nDate: D\r\nServer: r3u http/0.0.1\r\nConnection: close\r\n")
      rfl,
    response_layout_amended.2 (str "D")⟩

/-- C9.  The header store holds the parsed fields in reverse wire order
(each field is prepended), keeps duplicates unmerged, and the
case-insensitive lookup returns the value of the name's last appearance
in wire order. -/
theorem header_store_order (lines : List Str) (fields : List HTTPHeaderField)
    (hpar : List.Forall₂ (fun l f => read_header_field_line l = .ok (some f)) lines fields)
    (hwf : ∀ l ∈ lines, WfLine l) (term rest : Str)
    (hterm : term = str "\n" ∨ term = str "\r\n") :
    read_header_loop [] (lines.flatten ++ (term ++ rest)) = .ok (fields.reverse, rest)
    ∧ ∀ name, lookup_header_field_value fields.reverse name
        = ((fields.filter (fun f => strCaseEq f.name name)).getLast?).map
            HTTPHeaderField.value :=
  ⟨read_header_loop_wire lines fields hpar hwf term rest hterm,
   fun name => lookup_reverse fields name⟩

/-- C9 witness: two case-varying duplicates of one header; the store is
the reverse of wire order and the lookup answers with the value of the
later (wire-order) occurrence. -/
theorem header_store_order_witness :
    read_header_loop [] (str "X-A: 1\r\nx-a: 2\r\n\r\nBODY")
      = .ok ([⟨str "x-a", str "2\r\n"⟩, ⟨str "X-A", str "1\r\n"⟩], str "BODY")
    ∧ lookup_header_field_value [⟨str "x-a", str "2\r\n"⟩, ⟨str "X-A", str "1\r\n"⟩]
        (str "X-A") = some (str "2\r\n") := by
  have h := header_store_order [str "X-A: 1\r\n", str "x-a: 2\r\n"]
    [⟨str "X-A", str "1\r\n"⟩, ⟨str "x-a", str "2\r\n"⟩]
    (List.Forall₂.cons rfl (List.Forall₂.cons rfl List.Forall₂.nil))
    (by intro l hl
        simp only [List.mem_cons, List.not_mem_nil, or_false] at hl
        rcases hl with rfl | rfl
        · exact ⟨str "X-A: 1\r", rfl, by decide⟩
        · exact ⟨str "x-a: 2\r", rfl, by decide⟩)
    (str "\r\n") (str "BODY") (Or.inr rfl)
  exact ⟨h.1, h.2 (str "X-A")⟩

end R3U
